import Mathlib

/-! # Verification of the ctags `misc/units.py` test harness

This file is a shallow embedding, in Lean 4, of the result-classification
core of the `units.py` conformance-test runner:

* a small backtracking regular-expression engine mirroring the subset of
  Python `re` semantics used by the harness (`re.sub` with a replacement
  count, greedy quantifiers, character classes, `^` and `$` anchors,
  capture groups), used to embed `basename_filter` and `run_filter`;
* the gating predicates `check_units`, `check_features`, `check_languages`;
* the per-case classifier `run_tcase`, modelled as a pure function from an
  environment record (test-case metadata plus the observed results of the
  external subprocess calls) to the ordered list of outcome collections the
  case is appended to;
* the aggregate verdict of `action_run`.

Theorems about these definitions settle the specification claims.
-/

namespace UnitsPy

/-! ## A miniature Python-`re` engine

Only the constructs appearing in the patterns of `basename_filter` and the
anonymization pairs are supported: literal characters, character classes
(positive and negated), `.`, `^`, `$`, concatenation, greedy `*`, `+` and
`?`, and numbered capture groups.  Matching is backtracking with Python's
strategy: leftmost match wins, greedy quantifiers prefer longer matches,
and a starred body that makes no progress stops iterating.  The engine is
written with an explicit fuel argument so that every definition is
structurally recursive and kernel-reducible. -/

inductive RE where
  | eps : RE
  | char : Char → RE
  | cls : Bool → List Char → RE
  | any : RE
  | start : RE
  | eol : RE
  | seq : RE → RE → RE
  | star : RE → RE
  | plus : RE → RE
  | opt : RE → RE
  | group : Nat → RE → RE
deriving DecidableEq, Repr

/-- Capture-group store: `(index, begin, end)` triples, most recent first. -/
abbrev Grp := List (Nat × Nat × Nat)

/-- Membership test for a character class (`true` = negated class). -/
def clsMatch (neg : Bool) (cs : List Char) (c : Char) : Bool :=
  if neg then decide (c ∉ cs) else decide (c ∈ cs)

/-- One backtracking matching step, in continuation-passing style.  The
continuation receives the position after the sub-match and the updated
group store; the first success in Python's preference order is returned.
`fuel` strictly decreases on every recursive call. -/
def mrun (s : List Char) : Nat → RE → Nat → Grp →
    (Nat → Grp → Option (Nat × Grp)) → Option (Nat × Grp)
  | 0, _, _, _, _ => none
  | Nat.succ fuel, re, pos, g, k =>
    match re with
    | .eps => k pos g
    | .char c =>
        match s.get? pos with
        | some c' => if c' = c then k (pos + 1) g else none
        | none => none
    | .cls neg cs =>
        match s.get? pos with
        | some c' => if clsMatch neg cs c' then k (pos + 1) g else none
        | none => none
    | .any =>
        match s.get? pos with
        | some c' => if c' = '\n' then none else k (pos + 1) g
        | none => none
    | .start => if pos = 0 then k pos g else none
    | .eol =>
        if pos = s.length then k pos g
        else if pos + 1 = s.length ∧ s.get? pos = some '\n' then k pos g
        else none
    | .seq a b => mrun s fuel a pos g (fun p g' => mrun s fuel b p g' k)
    | .star a =>
        match mrun s fuel a pos g
            (fun p g' => if pos < p then mrun s fuel (.star a) p g' k else none) with
        | some r => some r
        | none => k pos g
    | .plus a => mrun s fuel a pos g (fun p g' => mrun s fuel (.star a) p g' k)
    | .opt a =>
        match mrun s fuel a pos g k with
        | some r => some r
        | none => k pos g
    | .group i a => mrun s fuel a pos g (fun p g' => k p ((i, pos, p) :: g'))

/-- Fuel budget that is ample for the fixed harness patterns. -/
def matchFuel (s : List Char) : Nat := (s.length + 2) * 64

/-- Leftmost match at or after position `i`: returns `(begin, end, groups)`.
Mirrors `re` scanning every start position in increasing order. -/
def searchFrom (s : List Char) (re : RE) : Nat → Nat → Option (Nat × Nat × Grp)
  | 0, _ => none
  | Nat.succ fuel, i =>
    if s.length < i then none
    else
      match mrun s (matchFuel s) re i [] (fun p g => some (p, g)) with
      | some (p, g) => some (i, p, g)
      | none => searchFrom s re fuel (i + 1)

/-- A replacement template item: literal text or a group back-reference. -/
inductive TmplItem where
  | lit : String → TmplItem
  | ref : Nat → TmplItem
deriving DecidableEq, Repr

abbrev Tmpl := List TmplItem

/-- Resolve a group index in the store (latest assignment wins, as in
Python where a repeated group keeps its final occurrence). -/
def grpLookup (g : Grp) (i : Nat) : Option (Nat × Nat) :=
  (g.find? (fun e => e.1 = i)).map (fun e => e.2)

/-- Instantiate a replacement template against the matched groups. -/
def applyTmpl (s : List Char) (g : Grp) (t : Tmpl) : List Char :=
  t.flatMap (fun item =>
    match item with
    | .lit str => str.toList
    | .ref i =>
        match grpLookup g i with
        | some (a, b) => (s.drop a).take (b - a)
        | none => [])

/-- Core of `re.subn`: repeatedly replace the leftmost match, starting the
next scan where the previous match ended (one character later on an empty
match, copying the skipped character through), until no match remains or
the optional replacement budget (`remaining = some n`) is exhausted.
Returns the rewritten suffix from `pos` together with the number of
replacements performed. -/
def subnGo (s : List Char) (re : RE) (t : Tmpl) :
    Nat → Nat → Option Nat → List Char × Nat
  | 0, pos, _ => (s.drop pos, 0)
  | Nat.succ fuel, pos, remaining =>
    if remaining = some 0 then (s.drop pos, 0)
    else
      match searchFrom s re (s.length + 2) pos with
      | none => (s.drop pos, 0)
      | some (i, p, g) =>
        let pre := (s.drop pos).take (i - pos)
        let repl := applyTmpl s g t
        if p = i then
          let carry := (s.drop i).take 1
          let next := subnGo s re t fuel (i + 1) (remaining.map (fun n => n - 1))
          (pre ++ repl ++ carry ++ next.1, next.2 + 1)
        else
          let next := subnGo s re t fuel p (remaining.map (fun n => n - 1))
          (pre ++ repl ++ next.1, next.2 + 1)

/-- Python `re.subn(pattern, repl, string, count)`: `count = 0` means
unlimited, otherwise at most `count` replacements. -/
def subn (re : RE) (t : Tmpl) (count : Nat) (str : String) : String × Nat :=
  let s := str.toList
  let remaining : Option Nat := if count = 0 then none else some count
  let r := subnGo s re t (s.length + 2) 0 remaining
  (String.mk r.1, r.2)

/-- Python `re.sub(pattern, repl, string, count)`. -/
def sub (re : RE) (t : Tmpl) (count : Nat) (str : String) : String :=
  (subn re t count str).1

/-- Literal-string pattern (used for the anonymization hash pairs). -/
def strRE (str : String) : RE :=
  (str.toList.map RE.char).foldr RE.seq RE.eps

/-! ## The output normalizer (`basename_filter`, `run_filter`)

The internal basename filters of `units.py`, one per output format:

* `ctags`: `(^[^\t]+\t)(/?([^/\t]+/)*)` → `\1`
* `etags`: `.*/(\S+),([0-9]+$)` → `\1,\2`
* `xref` : `(.*\d+ )([^ ]+[^ ]+)/([^ ].+.+$)` → `\1\3`
* `json` : `("path": )"[^"]+/([^/"]+)"` → `\1"\2"`
-/

/-- The expected-artifact output formats of the harness. -/
inductive OutputType where
  | ctags | etags | xref | json
deriving DecidableEq, Repr

/-- Python `\d` restricted to ASCII, i.e. `[0-9]`. -/
def digitCls : RE := .cls false ['0', '1', '2', '3', '4', '5', '6', '7', '8', '9']

/-- Python `\S` restricted to ASCII: not in `[ \t\n\r\f\v]`. -/
def notSpaceCls : RE := .cls true [' ', '\t', '\n', '\r', '\x0b', '\x0c']

/-- `(^[^\t]+\t)(/?([^/\t]+/)*)` -/
def reCtags : RE :=
  .seq (.group 1 (.seq .start (.seq (.plus (.cls true ['\t'])) (.char '\t'))))
    (.group 2 (.seq (.opt (.char '/'))
      (.star (.group 3 (.seq (.plus (.cls true ['/', '\t'])) (.char '/'))))))

/-- `.*/(\S+),([0-9]+$)` -/
def reEtags : RE :=
  .seq (.seq (.star .any) (.char '/'))
    (.seq (.group 1 (.plus notSpaceCls))
      (.seq (.char ',') (.group 2 (.seq (.plus digitCls) .eol))))

/-- `(.*\d+ )([^ ]+[^ ]+)/([^ ].+.+$)` -/
def reXref : RE :=
  .seq (.group 1 (.seq (.star .any) (.seq (.plus digitCls) (.char ' '))))
    (.seq (.group 2 (.seq (.plus (.cls true [' '])) (.plus (.cls true [' ']))))
      (.seq (.char '/')
        (.group 3 (.seq (.cls true [' '])
          (.seq (.plus .any) (.seq (.plus .any) .eol))))))

/-- `("path": )"[^"]+/([^/"]+)"` -/
def reJson : RE :=
  .seq (.group 1 (strRE "\"path\": "))
    (.seq (.char '"')
      (.seq (.plus (.cls true ['"']))
        (.seq (.char '/')
          (.seq (.group 2 (.plus (.cls true ['/', '"']))) (.char '"')))))

/-- `basename_filter(internal=True, output_type)`: the per-format
`(pattern, replacement)` pair from `filters_internal`. -/
def basename_filter (output_type : OutputType) : RE × Tmpl :=
  match output_type with
  | .ctags => (reCtags, [.ref 1])
  | .etags => (reEtags, [.ref 1, .lit ",", .ref 2])
  | .xref => (reXref, [.ref 1, .ref 3])
  | .json => (reJson, [.ref 1, .lit "\"", .ref 2, .lit "\""])

/-- One application of the basename filter's substitution to a line, with
the replacement count 1 used by `run_filter` (`pat1[0].sub(pat1[1], l, 1)`). -/
def basename_sub_once (output_type : OutputType) (l : String) : String :=
  sub (basename_filter output_type).1 (basename_filter output_type).2 1 l

/-- The per-line transform of `run_filter`: the basename filter is applied
with substitution count 1, then every anonymization `(pattern, replacement)`
pair is substituted with no count limit. -/
def run_filter_line (base : RE × Tmpl) (anon : List (RE × Tmpl)) (l : String) :
    String :=
  anon.foldl (fun acc p => sub p.1 p.2 0 acc) (sub base.1 base.2 1 l)

/-- `run_filter` maps the per-line transform over the input lines. -/
def run_filter (lines : List String) (base : RE × Tmpl) (anon : List (RE × Tmpl)) :
    List String :=
  lines.map (run_filter_line base anon)

/-! ## Gating checks -/

/-- Index of the last `/` in `cs` that has at least one character on both
sides: the split position produced by Python's greedy `re.match('(.+)/(.+)', u)`. -/
def unitSplitIdx (cs : List Char) : Option Nat :=
  ((List.range cs.length).filter
    (fun i => cs.getD i ' ' = '/' ∧ 0 < i ∧ i + 1 < cs.length)).getLast?

/-- `check_units(name, category)`: with an empty `UNITS` list every case is
accepted; otherwise an entry `CAT/NAME` must equal `(category, name)` and a
plain entry must equal `name`. -/
def check_units (name category : String) (units : List String) : Bool :=
  if units.isEmpty then true
  else units.any (fun u =>
    match unitSplitIdx u.toList with
    | some i =>
        decide ((String.mk (u.toList.take i), String.mk (u.toList.drop (i + 1)))
          = (category, name))
    | none => u == name)

/-- Loop body of `check_features`: empty entries are skipped; an entry
`!X` sets `found_unexpectedly` when `X` is advertised and never sets
`found`; a plain entry sets `found` when advertised.  The entry fails the
check when `found_unexpectedly` or when not `found`. -/
def check_features_go (flist : List String) : List String → Bool × String
  | [] => (true, "")
  | f :: rest =>
    if f = "" then check_features_go flist rest
    else
      let found_unexpectedly := if f.front = '!' then decide (f.drop 1 ∈ flist) else false
      let found := if f.front = '!' then false else decide (f ∈ flist)
      if found_unexpectedly then (false, f)
      else if found = false then (false, f)
      else check_features_go flist rest

/-- `check_features(feature, ffile)`: a non-empty `feature` argument (the
output-format requirement) takes precedence over the `features` file, whose
contents are `ffile` when the file exists. -/
def check_features (feature : String) (ffile : Option (List String))
    (flist : List String) : Bool × String :=
  let features := if feature ≠ "" then [feature] else ffile.getD []
  check_features_go flist features

/-- Loop body of `check_languages`: every expected language must appear in
the subject's advertised list. -/
def check_languages_go (langs : List String) : List String → Bool × String
  | [] => (true, "")
  | e :: rest => if e ∈ langs then check_languages_go langs rest else (false, e)

/-- `check_languages(cmdline, lfile)`: passes trivially when there is no
`languages` file. -/
def check_languages (langs : List String) (lfile : Option (List String)) :
    Bool × String :=
  match lfile with
  | none => (true, "")
  | some lines => check_languages_go langs lines

/-! ## The per-case classifier `run_tcase` -/

/-- `_TIMEOUT_EXIT` (defined in the source, never used by it). -/
def _TIMEOUT_EXIT : Int := 124

/-- `_VALGRIND_EXIT`, the valgrind `--error-exitcode` sentinel. -/
def _VALGRIND_EXIT : Int := 58

/-- The outcome collections (`L_PASSED`, `L_FIXED`, ...) a case can be
appended to. -/
inductive OutcomeTag where
  | Passed | Fixed | FailedStatus | FailedDiff
  | SkippedFeature | SkippedLanguage | SkippedIloop
  | KnownBug | TimedOut | BrokenArgsCtags | Valgrind
deriving DecidableEq, Repr

/-- Result of the main (timed) subject execution: either the
`subprocess.TimeoutExpired` path or completion with an exit code. -/
inductive ExecResult where
  | timedOut : ExecResult
  | completed : Int → ExecResult
deriving DecidableEq, Repr

/-- Environment of one `run_tcase` call: the case's metadata together with
the observed results of the external subprocess calls, so that the
classifier is a pure function of it. -/
structure TEnv where
  name : String
  category : String
  tclass : Char
  units : List String
  featureList : List String
  ffeatures : Option (List String)
  advertisedLangs : List String
  flanguages : Option (List String)
  artifact : Option OutputType
  withTimeout : Nat
  withValgrind : Bool
  hasArgsCtags : Bool
  argsDryRunRC : Int
  exec : ExecResult
  filecmpEq : Bool
  diffRC : Int
deriving Repr

/-- `output_feature` is `"json"` exactly when the json expected artifact
was selected, `""` otherwise. -/
def output_feature (e : TEnv) : String :=
  if e.artifact = some OutputType.json then "json" else ""

/-- What one `run_tcase` call did: the ordered list of outcome collections
the case was appended to, the boolean return value, whether the subject
was invoked for the language-detection probe and for the `args.ctags`
dry-run validation, whether the main test execution was attempted, and the
main execution's captured exit code (none when it timed out or never ran). -/
structure RunOutcome where
  records : List OutcomeTag
  retval : Bool
  probed : Bool
  dryRun : Bool
  executed : Bool
  execRC : Option Int
deriving DecidableEq, Repr

/-- `run_tcase`, modelled step for step from the source: the unit filter,
the `args.ctags` dry-run, the language probe, the feature / language /
infinite-loop / broken-args gates in that order, then the main execution
with the timeout, valgrind-sentinel, known-bug and exit-status branches,
and finally the artifact comparison (`filecmp.cmp`, falling back to
`diff -I '^!_TAG'`). -/
def run_tcase (e : TEnv) : RunOutcome :=
  if check_units e.name e.category e.units = false then
    ⟨[], false, false, false, false, none⟩
  else
    if (check_features (output_feature e) e.ffeatures e.featureList).1 = false then
      ⟨[.SkippedFeature], false, true, e.hasArgsCtags, false, none⟩
    else if (check_languages e.advertisedLangs e.flanguages).1 = false then
      ⟨[.SkippedLanguage], false, true, e.hasArgsCtags, false, none⟩
    else if e.withTimeout = 0 ∧ e.tclass = 'i' then
      ⟨[.SkippedIloop], false, true, e.hasArgsCtags, false, none⟩
    else if e.hasArgsCtags = true ∧ e.argsDryRunRC ≠ 0 then
      ⟨[.BrokenArgsCtags], false, true, e.hasArgsCtags, false, none⟩
    else
      match e.exec with
      | .timedOut => ⟨[.TimedOut], false, true, e.hasArgsCtags, true, none⟩
      | .completed rc =>
        if rc ≠ 0 then
          if e.withValgrind = true ∧ rc = _VALGRIND_EXIT ∧ e.tclass ≠ 'v' then
            ⟨[.Valgrind], false, true, e.hasArgsCtags, true, some rc⟩
          else if e.tclass = 'b' then
            ⟨[.KnownBug], true, true, e.hasArgsCtags, true, some rc⟩
          else
            ⟨[.FailedStatus], false, true, e.hasArgsCtags, true, some rc⟩
        else
          let fixedV : List OutcomeTag :=
            if e.withValgrind = true ∧ e.tclass = 'v' then [.Fixed] else []
          if e.artifact.isNone then
            let fixedB : List OutcomeTag :=
              if e.tclass = 'b' then [.Fixed]
              else if e.tclass = 'i' then [.Fixed] else []
            ⟨fixedV ++ fixedB ++ [.Passed], true, true, e.hasArgsCtags, true, some rc⟩
          else if e.filecmpEq = true ∨ e.diffRC = 0 then
            let fixedB : List OutcomeTag :=
              if e.tclass = 'b' then [.Fixed]
              else if e.withTimeout ≠ 0 ∧ e.tclass = 'i' then [.Fixed] else []
            ⟨fixedV ++ fixedB ++ [.Passed], true, true, e.hasArgsCtags, true, some rc⟩
          else if e.tclass = 'b' then
            ⟨fixedV ++ [.KnownBug], true, true, e.hasArgsCtags, true, some rc⟩
          else
            ⟨fixedV ++ [.FailedDiff], false, true, e.hasArgsCtags, true, some rc⟩

/-! ## The aggregator and `action_run`'s verdict -/

/-- The global result lists. -/
structure ResultLists where
  passed : List String
  fixed : List String
  failedStatus : List String
  failedDiff : List String
  skippedFeatures : List String
  skippedLanguages : List String
  skippedIloop : List String
  knownBugs : List String
  timedOut : List String
  brokenArgs : List String
  valgrind : List String
deriving DecidableEq, Repr

def emptyLists : ResultLists := ⟨[], [], [], [], [], [], [], [], [], [], []⟩

/-- The list an outcome collection tag denotes. -/
def listOf (tag : OutcomeTag) (ls : ResultLists) : List String :=
  match tag with
  | .Passed => ls.passed
  | .Fixed => ls.fixed
  | .FailedStatus => ls.failedStatus
  | .FailedDiff => ls.failedDiff
  | .SkippedFeature => ls.skippedFeatures
  | .SkippedLanguage => ls.skippedLanguages
  | .SkippedIloop => ls.skippedIloop
  | .KnownBug => ls.knownBugs
  | .TimedOut => ls.timedOut
  | .BrokenArgsCtags => ls.brokenArgs
  | .Valgrind => ls.valgrind

/-- `L_X += [category + '/' + name]` for the collection named by `tag`. -/
def recordTag (ls : ResultLists) (cn : String) (tag : OutcomeTag) : ResultLists :=
  match tag with
  | .Passed => { ls with passed := ls.passed ++ [cn] }
  | .Fixed => { ls with fixed := ls.fixed ++ [cn] }
  | .FailedStatus => { ls with failedStatus := ls.failedStatus ++ [cn] }
  | .FailedDiff => { ls with failedDiff := ls.failedDiff ++ [cn] }
  | .SkippedFeature => { ls with skippedFeatures := ls.skippedFeatures ++ [cn] }
  | .SkippedLanguage => { ls with skippedLanguages := ls.skippedLanguages ++ [cn] }
  | .SkippedIloop => { ls with skippedIloop := ls.skippedIloop ++ [cn] }
  | .KnownBug => { ls with knownBugs := ls.knownBugs ++ [cn] }
  | .TimedOut => { ls with timedOut := ls.timedOut ++ [cn] }
  | .BrokenArgsCtags => { ls with brokenArgs := ls.brokenArgs ++ [cn] }
  | .Valgrind => { ls with valgrind := ls.valgrind ++ [cn] }

/-- The appends one `run_tcase` call performs on the global lists. -/
def run_tcase_record (ls : ResultLists) (e : TEnv) : ResultLists :=
  (run_tcase e).records.foldl
    (fun acc t => recordTag acc (e.category ++ "/" ++ e.name) t) ls

/-- The verdict of `action_run`: run every case, then return 1 when any of
`L_FAILED_BY_STATUS`, `L_FAILED_BY_DIFF`, `L_FAILED_BY_TIMEED_OUT`,
`L_BROKEN_ARGS_CTAGS` is non-empty, 0 otherwise. -/
def action_run (cases : List TEnv) : Nat :=
  let ls := cases.foldl run_tcase_record emptyLists
  if ls.failedStatus ≠ [] ∨ ls.failedDiff ≠ [] ∨ ls.timedOut ≠ [] ∨
      ls.brokenArgs ≠ [] then 1 else 0

/-! ## The spec's gating order (for the refinement claim C5) -/

/-- The pre-execution gating checks, in the spec's order. -/
inductive Gate where
  | unitFilter | features | languages | iloopNoTimeout | brokenArgs
deriving DecidableEq, Repr

/-- Modelled from the spec: the fixed evaluation order of the gating
checks — unit/case filter, required features, required languages,
infinite-loop risk without a timeout, broken options-file prerequisite —
returning the first failing one. -/
def spec_first_failing_gate (e : TEnv) : Option Gate :=
  if check_units e.name e.category e.units = false then some .unitFilter
  else if (check_features (output_feature e) e.ffeatures e.featureList).1 = false then
    some .features
  else if (check_languages e.advertisedLangs e.flanguages).1 = false then
    some .languages
  else if e.withTimeout = 0 ∧ e.tclass = 'i' then some .iloopNoTimeout
  else if e.hasArgsCtags = true ∧ e.argsDryRunRC ≠ 0 then some .brokenArgs
  else none

/-- Modelled from the spec: the outcome collections recorded for a failing
gate (the unit filter excludes the case silently). -/
def spec_gate_records (g : Gate) : List OutcomeTag :=
  match g with
  | .unitFilter => []
  | .features => [.SkippedFeature]
  | .languages => [.SkippedLanguage]
  | .iloopNoTimeout => [.SkippedIloop]
  | .brokenArgs => [.BrokenArgsCtags]

/-! ## Concrete example environments -/

/-- A plain case (`foo.d`) that passes every gate, exits 0 and matches its
expected artifact. -/
def envBase : TEnv :=
  { name := "foo", category := "ROOT", tclass := 'd', units := [],
    featureList := [], ffeatures := none, advertisedLangs := [],
    flanguages := none, artifact := some .ctags, withTimeout := 0,
    withValgrind := false, hasArgsCtags := false, argsDryRunRC := 0,
    exec := .completed 0, filecmpEq := true, diffRC := 1 }

/-- A known-bug case (`foo.b`) that exits 0 with matching artifact. -/
def envKnownBugPass : TEnv := { envBase with tclass := 'b' }

/-- A memory-check-only case (`foo.v`) under valgrind whose output differs
from the artifact. -/
def envValgrindVDiff : TEnv :=
  { envBase with
    tclass := 'v', withValgrind := true, filecmpEq := false, diffRC := 1 }

/-- A plain case exiting with code 58 while valgrind mode is off. -/
def envExit58Plain : TEnv := { envBase with exec := .completed 58 }

/-- A known-bug case exiting with code 58 under valgrind mode. -/
def envExit58ValgrindB : TEnv :=
  { envBase with tclass := 'b', withValgrind := true, exec := .completed 58 }

/-- A plain case exceeding a 5-second deadline. -/
def envTimedOutCase : TEnv :=
  { envBase with withTimeout := 5, exec := .timedOut }

/-- An infinite-loop-risk case (`baz.i`) with no deadline configured. -/
def envIloopNoDeadline : TEnv := { envBase with tclass := 'i' }

/-- A case whose `features` file requires the unavailable feature `nope`. -/
def envFeatureGate : TEnv := { envBase with ffeatures := some ["nope"] }

/-- A case whose `features` file holds the negated requirement `!json`
while `json` is absent from the advertised feature list. -/
def envNegFeatureAbsent : TEnv := { envBase with ffeatures := some ["!json"] }

/-- Predicate picking out the outcome collections other than `L_FIXED`. -/
def nonFixed (t : OutcomeTag) : Bool := !(t == OutcomeTag.Fixed)

end UnitsPy

namespace UnitsPy

/-! # Helper lemmas -/

theorem listOf_recordTag (tag tag' : OutcomeTag) (ls : ResultLists) (cn : String) :
    listOf tag (recordTag ls cn tag')
      = listOf tag ls ++ (if tag = tag' then [cn] else []) := by
  cases tag <;> cases tag' <;> simp [listOf, recordTag]

theorem listOf_fold_records (tag : OutcomeTag) (cn : String) :
    ∀ (records : List OutcomeTag) (ls : ResultLists),
      listOf tag (records.foldl (fun acc t => recordTag acc cn t) ls) ≠ [] ↔
        listOf tag ls ≠ [] ∨ tag ∈ records := by
  intro records
  induction records with
  | nil => intro ls; simp
  | cons t rest ih =>
    intro ls
    simp only [List.foldl_cons, ih, listOf_recordTag, List.mem_cons]
    constructor
    · rintro (hne | hmem)
      · by_cases ht : tag = t
        · exact Or.inr (Or.inl ht)
        · simp [ht] at hne; exact Or.inl hne
      · exact Or.inr (Or.inr hmem)
    · rintro (hne | ht | hmem)
      · left; intro hh; exact hne (List.append_eq_nil.mp hh).1
      · left; simp [ht]
      · right; exact hmem

theorem listOf_fold_cases (tag : OutcomeTag) :
    ∀ (cs : List TEnv) (ls : ResultLists),
      listOf tag (cs.foldl run_tcase_record ls) ≠ [] ↔
        listOf tag ls ≠ [] ∨ ∃ e ∈ cs, tag ∈ (run_tcase e).records := by
  intro cs
  induction cs with
  | nil => intro ls; simp
  | cons e rest ih =>
    intro ls
    simp only [List.foldl_cons, ih, List.mem_cons]
    rw [run_tcase_record, listOf_fold_records]
    constructor
    · rintro ((hne | hmem) | hrest)
      · exact Or.inl hne
      · exact Or.inr ⟨e, Or.inl rfl, hmem⟩
      · obtain ⟨e', he', hm⟩ := hrest
        exact Or.inr ⟨e', Or.inr he', hm⟩
    · rintro (hne | ⟨e', he', hm⟩)
      · exact Or.inl (Or.inl hne)
      · rcases he' with rfl | he'
        · exact Or.inl (Or.inr hm)
        · exact Or.inr ⟨e', he', hm⟩

theorem subnGo_some_zero (s : List Char) (re : RE) (t : Tmpl) :
    ∀ fuel pos, subnGo s re t fuel pos (some 0) = (s.drop pos, 0) := by
  intro fuel pos
  cases fuel <;> simp [subnGo]

theorem subnGo_count_le_one (s : List Char) (re : RE) (t : Tmpl) :
    ∀ fuel pos, (subnGo s re t fuel pos (some 1)).2 ≤ 1 := by
  intro fuel pos
  cases fuel with
  | zero => simp [subnGo]
  | succ f =>
    simp only [subnGo]
    split_ifs with h
    · simp
    · cases hs : searchFrom s re (s.length + 2) pos with
      | none => simp
      | some r =>
        obtain ⟨i, p, g⟩ := r
        simp only []
        split_ifs <;> simp [subnGo_some_zero]

/-! # Claim C1 -/

/-- Claim C1 as stated is false: the known-bug case of `envKnownBugPass`
(class suffix b, exit 0, output equal to the artifact) is recorded in the
Fixed collection and ALSO in the Passed collection — the source appends to
`L_FIXED` and then unconditionally to `L_PASSED`. -/
theorem c1_counterexample :
    OutcomeTag.Fixed ∈ (run_tcase envKnownBugPass).records ∧
      OutcomeTag.Passed ∈ (run_tcase envKnownBugPass).records := by
  rw [show (run_tcase envKnownBugPass).records
    = [OutcomeTag.Fixed, OutcomeTag.Passed] from rfl]
  decide

/-- Claim C1, amended: for every known-bug-class case whose gates pass,
whose run exits 0 and whose normalized output equals its expected artifact,
`run_tcase` records the case in the Fixed collection and additionally in
the Passed collection (in that order): Fixed is a side-signal accompanying
Passed, not a replacement for it. -/
theorem c1_fixed_recorded_with_passed (e : TEnv)
    (hu : check_units e.name e.category e.units = true)
    (hf : (check_features (output_feature e) e.ffeatures e.featureList).1 = true)
    (hl : (check_languages e.advertisedLangs e.flanguages).1 = true)
    (hb : ¬ (e.hasArgsCtags = true ∧ e.argsDryRunRC ≠ 0))
    (hc : e.tclass = 'b')
    (hx : e.exec = ExecResult.completed 0)
    (ha : e.artifact.isSome)
    (hd : e.filecmpEq = true ∨ e.diffRC = 0) :
    (run_tcase e).records = [OutcomeTag.Fixed, OutcomeTag.Passed] := by
  simp only [run_tcase, hu, hf, hl, hb, hc, hx, hd, ha]
  simp +decide [Option.isNone_iff_eq_none, Option.isSome_iff_ne_none.mp ha]

/-- Claim C1 witness: the amended theorem applied to `envKnownBugPass`. -/
theorem c1_witness :
    (run_tcase envKnownBugPass).records = [OutcomeTag.Fixed, OutcomeTag.Passed] :=
  c1_fixed_recorded_with_passed envKnownBugPass rfl rfl rfl (by decide) rfl rfl
    rfl (Or.inl rfl)

/-! # Claim C2 -/

/-- Claim C2: the code is wrong.  A negated requirement makes
`check_features` fail even when the feature is absent: for the entry
`!json` it returns `(False, '!json')` both when `json` is absent and when
it is present, because the loop never sets `found` for a negated entry and
then takes the `not found` failure branch.  Consequently a case whose
`features` file is `!json` is classified SkippedFeature (and `run_tcase`
reports the unwanted feature as available) even though `json` is absent. -/
theorem c2_negated_feature_gate_bug :
    check_features "" (some ["!json"]) [] = (false, "!json") ∧
      check_features "" (some ["!json"]) ["json"] = (false, "!json") ∧
      (run_tcase envNegFeatureAbsent).records = [OutcomeTag.SkippedFeature] :=
  ⟨rfl, rfl, rfl⟩

/-! # Claim C3 -/

/-- Claim C3 as stated is false: the memory-check-only case of
`envValgrindVDiff` (class v under valgrind, exit 0, output differing from
the artifact) is appended to two outcome collections, Fixed and
FailedDiff. -/
theorem c3_counterexample :
    OutcomeTag.Fixed ∈ (run_tcase envValgrindVDiff).records ∧
      OutcomeTag.FailedDiff ∈ (run_tcase envValgrindVDiff).records ∧
      OutcomeTag.Fixed ≠ OutcomeTag.FailedDiff := by
  rw [show (run_tcase envValgrindVDiff).records
    = [OutcomeTag.Fixed, OutcomeTag.FailedDiff] from rfl]
  decide

set_option maxHeartbeats 1600000 in
/-- Claim C3, amended: per run, a case is appended to exactly one outcome
collection other than Fixed when it survives the unit filter and to none
otherwise; the Fixed collection can additionally receive the case
alongside that outcome (for fixed known-bug or infinite-loop cases
alongside Passed, and for class-v valgrind runs alongside whatever the
comparison yields). -/
theorem c3_one_primary_outcome (e : TEnv) :
    ((run_tcase e).records.filter nonFixed).length
      = if check_units e.name e.category e.units then 1 else 0 := by
  cases hx : e.exec <;>
    simp only [run_tcase, hx, apply_ite RunOutcome.records, List.filter_append,
      apply_ite (List.filter nonFixed), apply_ite List.length, List.length_append,
      List.filter_cons, List.filter_nil, nonFixed] <;>
    norm_num <;>
    split_ifs <;>
    simp_all

/-! # Claim C4 -/

/-- Claim C4 as stated is false: with valgrind mode off, the case of
`envExit58Plain` exits with the sentinel code 58 and class d, yet is
classified FailedStatus, not ValgrindError — the sentinel branch also
requires WITH_VALGRIND. -/
theorem c4_counterexample :
    (run_tcase envExit58Plain).execRC = some _VALGRIND_EXIT ∧
      OutcomeTag.Valgrind ∉ (run_tcase envExit58Plain).records ∧
      (run_tcase envExit58Plain).records = [OutcomeTag.FailedStatus] := by
  rw [show (run_tcase envExit58Plain).records = [OutcomeTag.FailedStatus] from rfl]
  exact ⟨rfl, by decide, rfl⟩

/-- Claim C4, amended: when valgrind mode is enabled, every executed case
whose exit code equals the memory-violation sentinel 58 and whose class is
not v is classified ValgrindError, before the generic non-zero handling:
in particular even a known-bug-class case ends in the Valgrind collection,
not KnownBug or FailedStatus. -/
theorem c4_valgrind_sentinel_priority (e : TEnv)
    (hu : check_units e.name e.category e.units = true)
    (hf : (check_features (output_feature e) e.ffeatures e.featureList).1 = true)
    (hl : (check_languages e.advertisedLangs e.flanguages).1 = true)
    (hi : ¬ (e.withTimeout = 0 ∧ e.tclass = 'i'))
    (hb : ¬ (e.hasArgsCtags = true ∧ e.argsDryRunRC ≠ 0))
    (hv : e.withValgrind = true)
    (hx : e.exec = ExecResult.completed _VALGRIND_EXIT)
    (hc : e.tclass ≠ 'v') :
    (run_tcase e).records = [OutcomeTag.Valgrind] := by
  simp only [run_tcase, hu, hf, hl, hi, hb, hv, hx, hc]
  simp +decide [_VALGRIND_EXIT, hc]

/-- Claim C4 witness: the amended theorem applied to `envExit58ValgrindB`,
a known-bug-class case. -/
theorem c4_witness : (run_tcase envExit58ValgrindB).records = [OutcomeTag.Valgrind] :=
  c4_valgrind_sentinel_priority envExit58ValgrindB rfl rfl rfl (by decide)
    (by decide) rfl rfl (by decide)

/-! # Claim C5 -/

/-- Claim C5: the pre-execution gating checks run in the fixed order
unit/case filter, features, languages, infinite-loop-risk without timeout,
broken args.ctags; whenever the spec-side order function finds a first
failing gate, `run_tcase` records exactly that gate's outcome, the main
execution is never attempted and no exit code is captured — independently
of everything a later check or the execution would look at. -/
theorem c5_gate_order (e : TEnv) (g : Gate)
    (h : spec_first_failing_gate e = some g) :
    (run_tcase e).records = spec_gate_records g ∧
      (run_tcase e).executed = false ∧ (run_tcase e).execRC = none := by
  unfold spec_first_failing_gate at h
  by_cases h1 : check_units e.name e.category e.units = false
  · rw [if_pos h1] at h; injection h with h'; subst h'
    simp [run_tcase, h1, spec_gate_records]
  · rw [if_neg h1] at h
    by_cases h2 : (check_features (output_feature e) e.ffeatures e.featureList).1 = false
    · rw [if_pos h2] at h; injection h with h'; subst h'
      simp [run_tcase, h1, h2, spec_gate_records]
    · rw [if_neg h2] at h
      by_cases h3 : (check_languages e.advertisedLangs e.flanguages).1 = false
      · rw [if_pos h3] at h; injection h with h'; subst h'
        simp [run_tcase, h1, h2, h3, spec_gate_records]
      · rw [if_neg h3] at h
        by_cases h4 : e.withTimeout = 0 ∧ e.tclass = 'i'
        · rw [if_pos h4] at h; injection h with h'; subst h'
          simp [run_tcase, h1, h2, h3, h4, spec_gate_records]
        · rw [if_neg h4] at h
          by_cases h5 : e.hasArgsCtags = true ∧ e.argsDryRunRC ≠ 0
          · rw [if_pos h5] at h; injection h with h'; subst h'
            simp [run_tcase, h1, h2, h3, h4, h5, spec_gate_records]
          · rw [if_neg h5] at h; cases h

/-- Claim C5 witness: the gate-order theorem applied to `envFeatureGate`,
whose first failing gate is the feature check. -/
theorem c5_witness :
    (run_tcase envFeatureGate).records = spec_gate_records Gate.features ∧
      (run_tcase envFeatureGate).executed = false ∧
      (run_tcase envFeatureGate).execRC = none :=
  c5_gate_order envFeatureGate Gate.features rfl

/-! # Claim C6 -/

/-- Claim C6 as stated is false in its second half: the timed-out case of
`envTimedOutCase` is classified TimedOut, but no exit code is recorded at
all (the `subprocess.TimeoutExpired` path never produces a returncode), so
the captured exit code is not the sentinel 124 — the `_TIMEOUT_EXIT`
constant is defined yet unused. -/
theorem c6_counterexample :
    (run_tcase envTimedOutCase).records = [OutcomeTag.TimedOut] ∧
      (run_tcase envTimedOutCase).execRC ≠ some _TIMEOUT_EXIT := by
  constructor
  · rfl
  · rw [show (run_tcase envTimedOutCase).execRC = none from rfl]
    decide

/-- Claim C6, amended: every case whose gates pass and whose execution
exceeds the deadline is classified TimedOut — decided immediately after
execution, before any exit-code or diff handling and regardless of the
case class — and no exit code is recorded for it (the timeout sentinel
constant 124 exists in the source but is never used). -/
theorem c6_timeout_classification (e : TEnv)
    (hu : check_units e.name e.category e.units = true)
    (hf : (check_features (output_feature e) e.ffeatures e.featureList).1 = true)
    (hl : (check_languages e.advertisedLangs e.flanguages).1 = true)
    (hi : ¬ (e.withTimeout = 0 ∧ e.tclass = 'i'))
    (hb : ¬ (e.hasArgsCtags = true ∧ e.argsDryRunRC ≠ 0))
    (hx : e.exec = ExecResult.timedOut) :
    (run_tcase e).records = [OutcomeTag.TimedOut] ∧
      (run_tcase e).executed = true ∧ (run_tcase e).execRC = none := by
  simp only [run_tcase, hu, hf, hl, hi, hb, hx]
  simp +decide

/-- Claim C6 witness: the amended theorem applied to `envTimedOutCase`. -/
theorem c6_witness :
    (run_tcase envTimedOutCase).records = [OutcomeTag.TimedOut] ∧
      (run_tcase envTimedOutCase).executed = true ∧
      (run_tcase envTimedOutCase).execRC = none :=
  c6_timeout_classification envTimedOutCase rfl rfl rfl (by decide) (by decide)
    rfl

/-! # Claim C7 -/

/-- Claim C7 as stated is false in its second half: the no-deadline
infinite-loop-risk case of `envIloopNoDeadline` is classified
SkippedInfiniteLoopRisk, but the subject program IS invoked for it — the
language-detection probe runs before the gating checks. -/
theorem c7_counterexample :
    (run_tcase envIloopNoDeadline).records = [OutcomeTag.SkippedIloop] ∧
      (run_tcase envIloopNoDeadline).probed = true :=
  ⟨rfl, rfl⟩

/-- Claim C7, amended: every infinite-loop-risk-class case that survives
the unit, feature and language gates is classified SkippedInfiniteLoopRisk
when no timeout is configured, regardless of the case's actual behavior
(the execution result is arbitrary), and the main test execution is never
attempted — but the subject is still invoked for the language-detection
probe before the gate fires. -/
theorem c7_iloop_skip (e : TEnv)
    (hu : check_units e.name e.category e.units = true)
    (hf : (check_features (output_feature e) e.ffeatures e.featureList).1 = true)
    (hl : (check_languages e.advertisedLangs e.flanguages).1 = true)
    (ht : e.withTimeout = 0)
    (hc : e.tclass = 'i') :
    (run_tcase e).records = [OutcomeTag.SkippedIloop] ∧
      (run_tcase e).executed = false ∧ (run_tcase e).probed = true ∧
      (run_tcase e).execRC = none := by
  simp only [run_tcase, hu, hf, hl, ht, hc]
  simp +decide

/-- Claim C7 witness: the amended theorem applied to `envIloopNoDeadline`. -/
theorem c7_witness :
    (run_tcase envIloopNoDeadline).records = [OutcomeTag.SkippedIloop] ∧
      (run_tcase envIloopNoDeadline).executed = false ∧
      (run_tcase envIloopNoDeadline).probed = true ∧
      (run_tcase envIloopNoDeadline).execRC = none :=
  c7_iloop_skip envIloopNoDeadline rfl rfl rfl rfl rfl

/-! # Claim C8 -/

/-- Claim C8 as stated is false: the basename filter's substitution is not
idempotent for every format and line.  For the ctags format on the line
a TAB slash slash x, one application yields a TAB slash x and a second
application strips further to a TAB x. -/
theorem c8_counterexample :
    ¬ ∀ (ot : OutputType) (l : String),
        basename_sub_once ot (basename_sub_once ot l) = basename_sub_once ot l := by
  intro h
  have h2 := h OutputType.ctags "a\t//x"
  rw [show basename_sub_once OutputType.ctags "a\t//x" = "a\t/x" from rfl,
    show basename_sub_once OutputType.ctags "a\t/x" = "a\tx" from rfl] at h2
  exact absurd h2 (by decide)

/-- Claim C8, amended: applying the basename filter's substitution twice
does not always equal applying it once: for the ctags format, a line whose
path field starts with a doubled slash loses one more path level on the
second application, so idempotence fails in general. -/
theorem c8_not_idempotent :
    basename_sub_once OutputType.ctags "a\t//x" = "a\t/x" ∧
      basename_sub_once OutputType.ctags "a\t/x" = "a\tx" ∧
      basename_sub_once OutputType.ctags (basename_sub_once OutputType.ctags "a\t//x")
        ≠ basename_sub_once OutputType.ctags "a\t//x" := by
  refine ⟨rfl, rfl, ?_⟩
  rw [show basename_sub_once OutputType.ctags "a\t//x" = "a\t/x" from rfl,
    show basename_sub_once OutputType.ctags "a\t/x" = "a\tx" from rfl]
  decide

/-! # Claim C9 -/

/-- Claim C9: the run verdict of `action_run` is 1 exactly when some case
of the run was recorded as FailedStatus, FailedDiff, TimedOut or
BrokenArgsCtags (broken prerequisite), and 0 otherwise. -/
theorem c9_exit_verdict (cs : List TEnv) :
    (action_run cs = 1 ↔
      ∃ e ∈ cs, ∃ t ∈ (run_tcase e).records,
        t = OutcomeTag.FailedStatus ∨ t = OutcomeTag.FailedDiff ∨
        t = OutcomeTag.TimedOut ∨ t = OutcomeTag.BrokenArgsCtags) ∧
    (action_run cs = 0 ↔
      ¬ ∃ e ∈ cs, ∃ t ∈ (run_tcase e).records,
        t = OutcomeTag.FailedStatus ∨ t = OutcomeTag.FailedDiff ∨
        t = OutcomeTag.TimedOut ∨ t = OutcomeTag.BrokenArgsCtags) := by
  have hS : (List.foldl run_tcase_record emptyLists cs).failedStatus ≠ [] ↔
      ∃ e ∈ cs, OutcomeTag.FailedStatus ∈ (run_tcase e).records := by
    simpa [listOf, emptyLists] using
      listOf_fold_cases OutcomeTag.FailedStatus cs emptyLists
  have hD : (List.foldl run_tcase_record emptyLists cs).failedDiff ≠ [] ↔
      ∃ e ∈ cs, OutcomeTag.FailedDiff ∈ (run_tcase e).records := by
    simpa [listOf, emptyLists] using
      listOf_fold_cases OutcomeTag.FailedDiff cs emptyLists
  have hT : (List.foldl run_tcase_record emptyLists cs).timedOut ≠ [] ↔
      ∃ e ∈ cs, OutcomeTag.TimedOut ∈ (run_tcase e).records := by
    simpa [listOf, emptyLists] using
      listOf_fold_cases OutcomeTag.TimedOut cs emptyLists
  have hB : (List.foldl run_tcase_record emptyLists cs).brokenArgs ≠ [] ↔
      ∃ e ∈ cs, OutcomeTag.BrokenArgsCtags ∈ (run_tcase e).records := by
    simpa [listOf, emptyLists] using
      listOf_fold_cases OutcomeTag.BrokenArgsCtags cs emptyLists
  have key : (∃ e ∈ cs, ∃ t ∈ (run_tcase e).records,
        t = OutcomeTag.FailedStatus ∨ t = OutcomeTag.FailedDiff ∨
        t = OutcomeTag.TimedOut ∨ t = OutcomeTag.BrokenArgsCtags) ↔
      ((∃ e ∈ cs, OutcomeTag.FailedStatus ∈ (run_tcase e).records) ∨
       (∃ e ∈ cs, OutcomeTag.FailedDiff ∈ (run_tcase e).records) ∨
       (∃ e ∈ cs, OutcomeTag.TimedOut ∈ (run_tcase e).records) ∨
       (∃ e ∈ cs, OutcomeTag.BrokenArgsCtags ∈ (run_tcase e).records)) := by
    constructor
    · rintro ⟨e, he, t, ht, (rfl | rfl | rfl | rfl)⟩
      · exact Or.inl ⟨e, he, ht⟩
      · exact Or.inr (Or.inl ⟨e, he, ht⟩)
      · exact Or.inr (Or.inr (Or.inl ⟨e, he, ht⟩))
      · exact Or.inr (Or.inr (Or.inr ⟨e, he, ht⟩))
    · rintro (⟨e, he, ht⟩ | ⟨e, he, ht⟩ | ⟨e, he, ht⟩ | ⟨e, he, ht⟩)
      · exact ⟨e, he, _, ht, Or.inl rfl⟩
      · exact ⟨e, he, _, ht, Or.inr (Or.inl rfl)⟩
      · exact ⟨e, he, _, ht, Or.inr (Or.inr (Or.inl rfl))⟩
      · exact ⟨e, he, _, ht, Or.inr (Or.inr (Or.inr rfl))⟩
  unfold action_run
  simp only [hS, hD, hT, hB, ← key]
  split_ifs with hc <;> simp [hc]

/-! # Claim C10 -/

/-- Claim C10: in the internal normalization path, the basename filter is
applied with a substitution count of 1 — for every pattern, template and
line at most one replacement happens — while each anonymization pair is
substituted without a count limit, rewriting every occurrence: on a json
line holding two path fields and two hash occurrences, the basename stage
rewrites only the first path field, and the anonymization stage rewrites
both hash occurrences. -/
theorem c10_filter_counts :
    (∀ (r : RE) (t : Tmpl) (l : String), (subn r t 1 l).2 ≤ 1) ∧
      subn (basename_filter OutputType.json).1 (basename_filter OutputType.json).2 1
          "\"path\": \"a/x.c\", \"path\": \"b/y.c\""
        = ("\"path\": \"x.c\", \"path\": \"b/y.c\"", 1) ∧
      subn (strRE "deadbeef") [TmplItem.lit "cafebabe"] 0 "deadbeef deadbeef"
        = ("cafebabe cafebabe", 2) ∧
      run_filter_line (basename_filter OutputType.json)
          [(strRE "deadbeef", [TmplItem.lit "cafebabe"])]
          "\"path\": \"a/deadbeef.c\", \"path\": \"b/deadbeef.c\""
        = "\"path\": \"cafebabe.c\", \"path\": \"b/cafebabe.c\"" := by
  refine ⟨?_, rfl, rfl, rfl⟩
  intro r t l
  simpa [subn] using subnGo_count_le_one l.toList r t (l.toList.length + 2) 0

end UnitsPy
